import Mathlib

/-!
Verification of the processing scheduler (utils/process.py): the
autoprocess polling and dispatch loop, the completion callback
processing_finished, the per-task process pipeline, the memory_limit and
get_memory resource helpers, and the exit behaviour of main.  The Python
source is embedded shallowly: dictionaries become association lists,
side effects become explicit event traces, and the asynchronous system is
a step relation interleaving loop passes with completion callbacks.
-/

namespace Cape

/-- Task status values exchanged with the task database: TASK_COMPLETED,
TASK_FAILED_PROCESSING and TASK_REPORTED. -/
inductive TaskStatus
  | completed
  | failed_processing
  | reported
deriving DecidableEq, Repr

/-- A queued analysis task as returned by db.list_tasks: numeric id,
category, target, and the sample reference used to locate stored
binaries. -/
structure Task where
  id : Nat
  category : String
  target : String
  sample_id : Nat
deriving DecidableEq, Repr

/-- Configuration values that drive the scheduler: max_analysis_count and
freespace from cuckoo.conf (zero disables each check), the parallel limit
and failed_processing flag from the command line, and the two deletion
flags delete_original and delete_bin_copy. -/
structure Config where
  maxcount : Nat
  freespace : Nat
  parallel : Nat
  failed_processing : Bool
  delete_original : Bool
  delete_bin_copy : Bool
deriving DecidableEq, Repr

/-- Scheduler bookkeeping: the dispatched-job counter plus the two module
level correlation maps pending_future_map (future handle to task id) and
pending_task_id_map (task id to future handle).  Future handles returned
by pool.schedule are modelled by the fresh counter nextFuture. -/
structure SchedState where
  count : Nat
  pending_future_map : List (Nat × Nat)
  pending_task_id_map : List (Nat × Nat)
  nextFuture : Nat
deriving DecidableEq, Repr

/-- autoprocess starts with count zero and both maps empty. -/
def initState : SchedState := ⟨0, [], [], 0⟩

/-- Observable actions of one pass of the loop body or of one completion
callback: the free_space_monitor probe, a sleep, a db.list_tasks query, a
pool.schedule dispatch, an os.unlink, and a db.set_status write. -/
inductive Event
  | checkDisk
  | sleep (secs : Nat)
  | queryJobStore (st : TaskStatus)
  | dispatch (taskId : Nat)
  | unlink (path : String)
  | setStatus (taskId : Nat) (st : TaskStatus)
deriving DecidableEq, Repr

/-- Environment answers consumed by one loop pass: the free_space_monitor
verdict, the task list returned by db.list_tasks, the sha256 looked up by
db.view_sample, and the os.path.exists oracle for the shared binary
copies. -/
structure IterInput where
  need_space : Bool
  tasks : List Task
  view_sample : Nat → String
  origin_exists : String → Bool

/-- Dictionary read, pending_task_id_map.get style: first binding of the
key, none when absent (map keys are unique, as in a Python dict). -/
def lookupKey (k : Nat) : List (Nat × Nat) → Option Nat
  | [] => none
  | (a, b) :: m => if a = k then some b else lookupKey k m

/-- Dictionary removal: drops the binding of the key (keys are unique in a
Python dict, so removing every binding of the key is the same as removing
the single one). -/
def eraseKey (k : Nat) : List (Nat × Nat) → List (Nat × Nat)
  | [] => []
  | (a, b) :: m => if a = k then eraseKey k m else (a, b) :: eraseKey k m

/-- The candidate scan of the autoprocess for-loop: every task whose id is
already a key of pending_task_id_map is skipped with continue, and the
loop breaks after taking the first remaining task. -/
def selectCandidate (pending : List (Nat × Nat)) : List Task → Option Task
  | [] => none
  | t :: ts =>
    if (lookupKey t.id pending).isSome then selectCandidate pending ts else some t

/-- The status queried by db.list_tasks: TASK_FAILED_PROCESSING in
reprocessing mode, otherwise TASK_COMPLETED. -/
def sourceStatus (cfg : Config) : TaskStatus :=
  if cfg.failed_processing then .failed_processing else .completed

/-- storage/binaries/(sha256): the shared origin binary copy, keyed by the
sample hash only. -/
def originPath (sha : String) : String := "storage/binaries/" ++ sha

/-- storage/binaries/(task id)/(sha256): the per-task binary copy path
computed for copy_path. -/
def binPath (tid : Nat) (sha : String) : String :=
  "storage/binaries/" ++ toString tid ++ "/" ++ sha

/-- The free_space_monitor probe event, present exactly when the freespace
configuration value is nonzero. -/
def diskEvs (cfg : Config) : List Event :=
  if cfg.freespace != 0 then [Event.checkDisk] else []

/-- The record updates performed when a task is dispatched: count is
incremented, the fresh future is mapped to the task id and back. -/
def dispatchState (s : SchedState) (t : Task) : SchedState :=
  { count := s.count + 1
    pending_future_map := (s.nextFuture, t.id) :: s.pending_future_map
    pending_task_id_map := (t.id, s.nextFuture) :: s.pending_task_id_map
    nextFuture := s.nextFuture + 1 }

/-- The deletion performed right after pool.schedule: when the task is not
of the url category (so copy_path is set), delete_bin_copy is enabled and
the shared origin copy exists, it is unlinked. -/
def delEvs (cfg : Config) (inp : IterInput) (t : Task) : List Event :=
  if (t.category != "url") && cfg.delete_bin_copy
      && inp.origin_exists (originPath (inp.view_sample t.sample_id)) then
    [Event.unlink (originPath (inp.view_sample t.sample_id))]
  else []

/-- One dispatch: the trace records the db.list_tasks query, the
pool.schedule call and the optional origin-copy unlink, in source
order. -/
def dispatchTask (cfg : Config) (inp : IterInput) (s : SchedState) (t : Task) :
    SchedState × List Event :=
  (dispatchState s t,
   diskEvs cfg ++ [Event.queryJobStore (sourceStatus cfg), Event.dispatch t.id]
     ++ delEvs cfg inp t)

/-- One pass of the autoprocess while-loop body.  In source order: when the
freespace check is enabled and reports insufficient space, sleep sixty
seconds and restart; when pending_task_id_map has reached the parallel
limit, sleep five seconds and restart; otherwise query db.list_tasks and
either dispatch the first candidate not already in flight or, when none
was added, sleep five seconds. -/
def autoIter (cfg : Config) (inp : IterInput) (s : SchedState) :
    SchedState × List Event :=
  if (cfg.freespace != 0) && inp.need_space then
    (s, [Event.checkDisk, Event.sleep 60])
  else if cfg.parallel ≤ s.pending_task_id_map.length then
    (s, diskEvs cfg ++ [Event.sleep 5])
  else
    match selectCandidate s.pending_task_id_map inp.tasks with
    | none => (s, diskEvs cfg ++ [Event.queryJobStore (sourceStatus cfg), Event.sleep 5])
    | some t => dispatchTask cfg inp s t

/-- Resolution outcomes of a scheduled future: future.result returns, or
raises TimeoutError, pebble.ProcessExpired or another Exception. -/
inductive Outcome
  | success
  | timeout
  | expired
  | failure
deriving DecidableEq, Repr

/-- Database writes performed by the completion callback: nothing on
success, one TASK_FAILED_PROCESSING write on each failure outcome. -/
def statusWrites (tid : Nat) : Outcome → List Event
  | Outcome.success => []
  | _ => [Event.setStatus tid TaskStatus.failed_processing]

/-- The processing_finished callback: look the task id up through the
future, write the failure status when the future resolved exceptionally,
then delete both map entries.  none models the KeyError raised by the
deletions when an entry is missing. -/
def processing_finished (s : SchedState) (fut : Nat) (out : Outcome) :
    Option (SchedState × List Event) :=
  match lookupKey fut s.pending_future_map with
  | none => none
  | some tid =>
    if (lookupKey tid s.pending_task_id_map).isSome then
      some ({ s with
                pending_future_map := eraseKey fut s.pending_future_map,
                pending_task_id_map := eraseKey tid s.pending_task_id_map },
            statusWrites tid out)
    else none

/-- The while condition of autoprocess: count < maxcount or not maxcount. -/
def loopContinues (cfg : Config) (count : Nat) : Bool :=
  decide (count < cfg.maxcount) || decide (cfg.maxcount = 0)

/-- One asynchronous step of the scheduler: either a pass of the loop body,
taken only while the while condition holds, or one completion callback. -/
inductive Step (cfg : Config) : SchedState → List Event → SchedState → Prop
  | iter (s : SchedState) (inp : IterInput)
      (h : loopContinues cfg s.count = true) :
      Step cfg s (autoIter cfg inp s).2 (autoIter cfg inp s).1
  | callback (s s2 : SchedState) (fut : Nat) (out : Outcome) (evs : List Event)
      (h : processing_finished s fut out = some (s2, evs)) :
      Step cfg s evs s2

/-- States and cumulative event logs reachable from the start of
autoprocess. -/
inductive Reach (cfg : Config) : SchedState → List Event → Prop
  | init : Reach cfg initState []
  | step (s : SchedState) (log evs : List Event) (s2 : SchedState)
      (h1 : Reach cfg s log) (h2 : Step cfg s evs s2) : Reach cfg s2 (log ++ evs)

def isDispatch : Event → Bool
  | Event.dispatch _ => true
  | _ => false

def isQuery : Event → Bool
  | Event.queryJobStore _ => true
  | _ => false

def isStatusWrite : Event → Bool
  | Event.setStatus _ _ => true
  | _ => false

def isUnlink : Event → Bool
  | Event.unlink _ => true
  | _ => false

/-! The per-task process function executed inside a worker. -/

/-- Observable actions of the process function. -/
inductive ProcEvent
  | runProcessing
  | runSignatures
  | runReporting (reprocess : Bool)
  | setStatus (taskId : Nat) (st : TaskStatus)
  | unlink (path : String)
deriving DecidableEq, Repr

/-- The statistics buckets of the results container seeded at the top of
the process function. -/
structure Statistics where
  processing : List Nat
  signatures : List Nat
  reporting : List Nat
deriving DecidableEq, Repr

/-- The results container handed to every stage. -/
structure Results where
  statistics : Statistics
deriving DecidableEq, Repr

/-- The container process builds before any stage runs: the three
statistics buckets are empty. -/
def initResults : Results := ⟨⟨[], [], []⟩⟩

/-- The post-reporting cleanup inside process: in auto mode the original
target is unlinked when delete_original is set and the target exists, and
the per-task binary copy is unlinked when copy_path is set, delete_bin_copy
is set and the path exists. -/
def procDelEvs (cfg : Config) (path_exists : String → Bool) (target : String)
    (copy_path : Option String) (auto : Bool) : List ProcEvent :=
  if auto then
    (if cfg.delete_original && path_exists target then
       [ProcEvent.unlink target] else [])
    ++ (match copy_path with
        | some cp =>
          if cfg.delete_bin_copy && path_exists cp then
            [ProcEvent.unlink cp] else []
        | none => [])
  else []

/-- The process function: seed the results container, run the processing
stage, then the signature stage on the same container, and when report is
set run the reporting stage with reprocess false in auto or capeproc mode,
mark the task reported, and perform the auto-mode cleanup.  Returned are
the seeded container and the action trace. -/
def process (cfg : Config) (path_exists : String → Bool) (target : String)
    (copy_path : Option String) (task_id : Nat)
    (report auto capeproc : Bool) : Results × List ProcEvent :=
  let reprocess : Bool := if auto || capeproc then false else report
  let reportEvs : List ProcEvent :=
    if report then
      [ProcEvent.runReporting reprocess,
       ProcEvent.setStatus task_id TaskStatus.reported]
      ++ procDelEvs cfg path_exists target copy_path auto
    else []
  (initResults, [ProcEvent.runProcessing, ProcEvent.runSignatures] ++ reportEvs)

def isProcSetStatus : ProcEvent → Bool
  | ProcEvent.setStatus _ _ => true
  | _ => false

/-! Resource helpers: get_memory and memory_limit. -/

/-- get_memory: scan the lines of /proc/meminfo, modelled as parsed
key-value pairs, and return the value of the first MemAvailable entry; the
accumulator starts at zero, so a file without that key yields zero. -/
def get_memory : List (String × Nat) → Nat
  | [] => 0
  | (k, v) :: rest => if k = "MemAvailable:" then v else get_memory rest

/-- What memory_limit does to the RLIMIT_AS soft limit. -/
inductive MemAction
  | noop
  | setSoftLimit (bytes : Nat)
deriving DecidableEq, Repr

/-- memory_limit: a no-op off Linux; on Linux it sets the RLIMIT_AS soft
limit to get_memory times 1024 times the default fraction 0.8, the float
product modelled as multiplication by 8 and division by 10 (exact at every
input the theorems below evaluate it on). -/
def memory_limit (system : String) (meminfo : List (String × Nat)) : MemAction :=
  if system = "Linux" then
    MemAction.setSoftLimit (get_memory meminfo * 1024 * 8 / 10)
  else MemAction.noop

/-! Control flow of autoprocess around its try, except and finally. -/

/-- Exception classes relevant to autoprocess. -/
inductive Exn
  | osError
  | memoryError
  | keyboardInterrupt
  | otherError
  | unboundLocal
deriving DecidableEq, Repr

/-- How a call to autoprocess terminates: a normal return, sys.exit with a
code, or an exception escaping the function. -/
inductive RunResult
  | returns
  | exits (code : Nat)
  | raises (e : Exn)
deriving DecidableEq, Repr

/-- The try, except and finally structure of autoprocess.  memory_limit
runs first inside the try; the pool variable is bound only when the with
statement is reached, hence only when memory_limit did not raise.  The
except clauses reraise KeyboardInterrupt, turn MemoryError into sys.exit
with code one, and swallow every other Exception after printing the
traceback.  The finally clause then evaluates pool.close, which raises
UnboundLocalError whenever the pool variable was never bound, superseding
any earlier outcome; when the pool was bound the close and join succeed
and the earlier outcome stands. -/
def autoprocess_outcome (setupExn : Option Exn) (bodyExn : Option Exn) : RunResult :=
  let poolBound := setupExn.isNone
  let escaping := match setupExn with
    | some e => some e
    | none => bodyExn
  let handled : RunResult :=
    match escaping with
    | none => RunResult.returns
    | some Exn.keyboardInterrupt => RunResult.raises Exn.keyboardInterrupt
    | some Exn.memoryError => RunResult.exits 1
    | some _ => RunResult.returns
  if poolBound then handled else RunResult.raises Exn.unboundLocal

/-! Exit behaviour of main. -/

/-- The command line and environment facts deciding which exit path main
takes.  setup_resource_failure is a resource query raising inside
memory_limit during autoprocess setup, before the pool is bound;
memory_exhausted is a MemoryError inside the loop body.  Analysis stages,
the database and argument parsing are the external collaborators the
specification assumes correct, so they do not appear as failure sources
here. -/
structure MainInput where
  id_is_auto : Bool
  analysis_dir_exists : Bool
  log_permission_error : Bool
  signatures : Bool
  report_found : Bool
  default_report_exists : Bool
  json_report_given : Bool
  json_report_exists : Bool
  setup_resource_failure : Bool
  memory_exhausted : Bool
deriving DecidableEq, Repr

/-- The distinct terminations of main. -/
inductive ExitKind
  | normal
  | missingAnalysisDir
  | logPermission
  | memoryExhaustion
  | missingReportFile
  | uncaughtError
deriving DecidableEq, Repr

/-- Process exit status for each termination: zero for a normal return,
one for every sys.exit with a message or code and for an uncaught
exception. -/
def exitCode : ExitKind → Nat
  | ExitKind.normal => 0
  | _ => 1

/-- How the termination of autoprocess becomes a termination of main: a
normal return falls off main with status zero; the only sys.exit inside
autoprocess is the MemoryError handler, giving the memory-exhaustion
exit; a reraised KeyboardInterrupt is caught and passed at top level, so
the process still exits zero; any other escaping exception — such as the
UnboundLocalError raised from the finally clause after a setup resource
failure — is uncaught. -/
def autoExitKind : RunResult → ExitKind
  | RunResult.returns => ExitKind.normal
  | RunResult.exits _ => ExitKind.memoryExhaustion
  | RunResult.raises Exn.keyboardInterrupt => ExitKind.normal
  | RunResult.raises _ => ExitKind.uncaughtError

/-- main: auto mode initialises logging, whose PermissionError handler
exits, then runs autoprocess, whose termination (including the setup
resource-failure crash and the MemoryError sys.exit, via
autoprocess_outcome) decides the exit.  Single-task mode first requires
the per-task analyses directory, then initialises logging, and in
signature mode falls back from the stored report to the default
report.json; when that is also missing, the source tests the json-report
argument with an inverted existence check, so a given json-report path
that does not exist is opened and the open raises an uncaught error,
while every other fallback failure is a sys.exit. -/
def main_run (inp : MainInput) : ExitKind :=
  if inp.id_is_auto then
    if inp.log_permission_error then ExitKind.logPermission
    else autoExitKind (autoprocess_outcome
      (if inp.setup_resource_failure then some Exn.osError else none)
      (if inp.memory_exhausted then some Exn.memoryError else none))
  else if !inp.analysis_dir_exists then ExitKind.missingAnalysisDir
  else if inp.log_permission_error then ExitKind.logPermission
  else if inp.signatures then
    if inp.report_found then ExitKind.normal
    else if inp.default_report_exists then ExitKind.normal
    else if inp.json_report_given && !inp.json_report_exists then ExitKind.uncaughtError
    else ExitKind.missingReportFile
  else ExitKind.normal

/-! Concrete fixtures used to evaluate the theorems below on closed
inputs. -/

/-- A file-category task with id one. -/
def taskA : Task := ⟨1, "file", "/tmp/a", 11⟩

/-- Unbounded run, disk check disabled, two parallel slots, origin-copy
deletion enabled. -/
def cfgA : Config := ⟨0, 0, 2, false, false, true⟩

/-- One eligible task, enough disk space, every path exists. -/
def inpA : IterInput := ⟨false, [taskA], fun _ => "abc", fun _ => true⟩

/-- Unbounded run with zero parallel slots and the disk check disabled. -/
def cfgB : Config := ⟨0, 0, 0, false, false, false⟩

/-- Empty task queue, enough disk space, no path exists. -/
def inpB : IterInput := ⟨false, [], fun _ => "", fun _ => false⟩

/-- A run bounded at three dispatches. -/
def cfgC : Config := ⟨3, 0, 1, false, false, false⟩

/-- A run with the disk check enabled at a nonzero minimum. -/
def cfgD : Config := ⟨0, 1, 1, false, false, false⟩

/-- Insufficient disk space reported. -/
def inpD : IterInput := ⟨true, [], fun _ => "", fun _ => false⟩

/-- A state with one in-flight job: future zero runs task one. -/
def stC2 : SchedState := ⟨1, [(0, 1)], [(1, 0)], 1⟩

/-- Signature-replay invocation with no stored report and no default
report.json. -/
def sigReplayNoReport : MainInput :=
  ⟨false, true, false, true, false, false, false, false, false, false⟩

/-- A meminfo file whose MemAvailable line is absent. -/
def meminfoNoAvailable : List (String × Nat) :=
  [("MemTotal:", 16384), ("MemFree:", 8192)]

/-- A meminfo file reporting fifty kilobytes available. -/
def meminfoAvailable : List (String × Nat) :=
  [("MemTotal:", 16384), ("MemAvailable:", 50)]

/-! Association list lemmas for the two pending maps. -/

theorem eraseKey_of_not_mem (k : Nat) (m : List (Nat × Nat))
    (h : k ∉ m.map Prod.fst) : eraseKey k m = m := by
  induction m with
  | nil => rfl
  | cons p rest ih =>
    obtain ⟨a, b⟩ := p
    simp only [List.map_cons, List.mem_cons] at h
    push_neg at h
    simp only [eraseKey, if_neg (Ne.symm h.1)]
    rw [ih h.2]

theorem lookupKey_eraseKey_self (k : Nat) (m : List (Nat × Nat)) :
    lookupKey k (eraseKey k m) = none := by
  induction m with
  | nil => rfl
  | cons p rest ih =>
    obtain ⟨a, b⟩ := p
    by_cases hak : a = k
    · simpa [eraseKey, hak] using ih
    · simp [eraseKey, hak, lookupKey, ih]

theorem lookupKey_eraseKey_ne (j k : Nat) (m : List (Nat × Nat)) (h : j ≠ k) :
    lookupKey j (eraseKey k m) = lookupKey j m := by
  induction m with
  | nil => rfl
  | cons p rest ih =>
    obtain ⟨a, b⟩ := p
    by_cases hak : a = k
    · subst hak
      have haj : ¬ a = j := fun hcon => h hcon.symm
      simp [eraseKey, lookupKey, haj, ih]
    · by_cases haj : a = j
      · subst haj
        simp [eraseKey, hak, lookupKey]
      · simp [eraseKey, hak, lookupKey, haj, ih]

theorem length_eraseKey (k : Nat) (v : Nat) (m : List (Nat × Nat))
    (hnd : (m.map Prod.fst).Nodup) (h : lookupKey k m = some v) :
    (eraseKey k m).length + 1 = m.length := by
  induction m with
  | nil => cases h
  | cons p rest ih =>
    obtain ⟨a, b⟩ := p
    simp only [List.map_cons, List.nodup_cons] at hnd
    by_cases hak : a = k
    · have : eraseKey k rest = rest :=
        eraseKey_of_not_mem k rest (hak ▸ hnd.1)
      simp [eraseKey, hak, this]
    · simp only [lookupKey, if_neg hak] at h
      simp [eraseKey, hak, ih hnd.2 h]

/-! Shapes of the small event lists. -/

theorem diskEvs_cases (cfg : Config) :
    diskEvs cfg = [] ∨ diskEvs cfg = [Event.checkDisk] := by
  unfold diskEvs
  split
  · exact Or.inr rfl
  · exact Or.inl rfl

theorem delEvs_cases (cfg : Config) (inp : IterInput) (t : Task) :
    delEvs cfg inp t = []
    ∨ delEvs cfg inp t = [Event.unlink (originPath (inp.view_sample t.sample_id))] := by
  unfold delEvs
  split
  · exact Or.inr rfl
  · exact Or.inl rfl

theorem diskEvs_countP_isDispatch (cfg : Config) :
    List.countP isDispatch (diskEvs cfg) = 0 := by
  rcases diskEvs_cases cfg with h | h <;> rw [h] <;> rfl

theorem diskEvs_countP_isQuery (cfg : Config) :
    List.countP isQuery (diskEvs cfg) = 0 := by
  rcases diskEvs_cases cfg with h | h <;> rw [h] <;> rfl

theorem delEvs_countP_isDispatch (cfg : Config) (inp : IterInput) (t : Task) :
    List.countP isDispatch (delEvs cfg inp t) = 0 := by
  rcases delEvs_cases cfg inp t with h | h <;> rw [h] <;> rfl

theorem not_dispatch_mem_diskEvs (cfg : Config) (tid : Nat) :
    Event.dispatch tid ∉ diskEvs cfg := by
  rcases diskEvs_cases cfg with h | h <;> rw [h] <;> simp

theorem not_dispatch_mem_delEvs (cfg : Config) (inp : IterInput) (t : Task) (tid : Nat) :
    Event.dispatch tid ∉ delEvs cfg inp t := by
  rcases delEvs_cases cfg inp t with h | h <;> rw [h] <;> simp

theorem not_sleep_mem_delEvs (cfg : Config) (inp : IterInput) (t : Task) (n : Nat) :
    Event.sleep n ∉ delEvs cfg inp t := by
  rcases delEvs_cases cfg inp t with h | h <;> rw [h] <;> simp

theorem not_checkDisk_mem_delEvs (cfg : Config) (inp : IterInput) (t : Task) :
    Event.checkDisk ∉ delEvs cfg inp t := by
  rcases delEvs_cases cfg inp t with h | h <;> rw [h] <;> simp

theorem statusWrites_countP_isDispatch (tid : Nat) (out : Outcome) :
    List.countP isDispatch (statusWrites tid out) = 0 := by
  cases out <;> rfl

theorem statusWrites_countP_isUnlink (tid : Nat) (out : Outcome) :
    List.countP isUnlink (statusWrites tid out) = 0 := by
  cases out <;> rfl

/-! Candidate selection. -/

theorem selectCandidate_eq_find (p : List (Nat × Nat)) (ts : List Task) :
    selectCandidate p ts = ts.find? (fun t => (lookupKey t.id p).isNone) := by
  induction ts with
  | nil => rfl
  | cons t ts ih =>
    cases hl : lookupKey t.id p with
    | none =>
      rw [List.find?_cons_of_pos _ (by simp [hl])]
      simp [selectCandidate, hl]
    | some v =>
      rw [List.find?_cons_of_neg _ (by simp [hl])]
      simp [selectCandidate, hl, ih]

theorem selectCandidate_lookup (p : List (Nat × Nat)) (ts : List Task) (t : Task)
    (h : selectCandidate p ts = some t) : lookupKey t.id p = none := by
  rw [selectCandidate_eq_find] at h
  have := List.find?_some h
  simpa [Option.isNone_iff_eq_none] using this

/-! Case analysis of one loop pass. -/

theorem autoIter_count (cfg : Config) (inp : IterInput) (s : SchedState) :
    (autoIter cfg inp s).1.count
      = s.count + List.countP isDispatch (autoIter cfg inp s).2 := by
  unfold autoIter
  split
  · rfl
  · split
    · simp [List.countP_append, diskEvs_countP_isDispatch, List.countP_cons, isDispatch]
    · split
      · simp [List.countP_append, diskEvs_countP_isDispatch, List.countP_cons, isDispatch]
      · simp [dispatchTask, dispatchState, List.countP_append,
          diskEvs_countP_isDispatch, delEvs_countP_isDispatch,
          List.countP_cons, isDispatch]

theorem autoIter_dispatch_le_one (cfg : Config) (inp : IterInput) (s : SchedState) :
    List.countP isDispatch (autoIter cfg inp s).2 ≤ 1 := by
  unfold autoIter
  split
  · simp [List.countP_cons, isDispatch]
  · split
    · simp [List.countP_append, diskEvs_countP_isDispatch, List.countP_cons, isDispatch]
    · split
      · simp [List.countP_append, diskEvs_countP_isDispatch, List.countP_cons, isDispatch]
      · simp [dispatchTask, List.countP_append, diskEvs_countP_isDispatch,
          delEvs_countP_isDispatch, List.countP_cons, isDispatch]

theorem autoIter_pending_le (cfg : Config) (inp : IterInput) (s : SchedState)
    (h : s.pending_task_id_map.length ≤ cfg.parallel) :
    (autoIter cfg inp s).1.pending_task_id_map.length ≤ cfg.parallel := by
  unfold autoIter
  split
  · exact h
  · split
    · exact h
    · split
      · exact h
      · next hfull _ _ =>
        simp only [dispatchTask, dispatchState, List.length_cons]
        omega

theorem autoIter_dispatch_mem (cfg : Config) (inp : IterInput) (s : SchedState)
    (tid : Nat) (h : Event.dispatch tid ∈ (autoIter cfg inp s).2) :
    ∃ t, selectCandidate s.pending_task_id_map inp.tasks = some t ∧ t.id = tid
      ∧ s.pending_task_id_map.length < cfg.parallel
      ∧ autoIter cfg inp s = dispatchTask cfg inp s t := by
  unfold autoIter at h ⊢
  split at h
  · simp at h
  · next hns =>
    split at h
    · exact absurd h (by
        intro hmem
        rcases List.mem_append.mp hmem with hd | ht
        · exact not_dispatch_mem_diskEvs cfg tid hd
        · simp at ht)
    · next hfull =>
      split at h
      · exact absurd h (by
          intro hmem
          rcases List.mem_append.mp hmem with hd | ht
          · exact not_dispatch_mem_diskEvs cfg tid hd
          · simp at ht)
      · next t hsel =>
        refine ⟨t, hsel, ?_, by omega, by simp [hns, hsel, if_neg hfull]⟩
        simp only [dispatchTask, List.append_assoc, List.mem_append] at h
        rcases h with hd | h
        · exact absurd hd (not_dispatch_mem_diskEvs cfg tid)
        rcases h with hq | hdel
        · simp only [List.mem_cons, List.not_mem_nil, or_false] at hq
          rcases hq with hq | hq
          · cases hq
          · injection hq with hid
            exact hid.symm
        · exact absurd hdel (not_dispatch_mem_delEvs cfg inp t tid)

/-! Elimination for the completion callback. -/

theorem pf_elim (s : SchedState) (fut : Nat) (out : Outcome) (s2 : SchedState)
    (evs : List Event) (h : processing_finished s fut out = some (s2, evs)) :
    ∃ tid, lookupKey fut s.pending_future_map = some tid
      ∧ (lookupKey tid s.pending_task_id_map).isSome = true
      ∧ s2 = { s with
                 pending_future_map := eraseKey fut s.pending_future_map,
                 pending_task_id_map := eraseKey tid s.pending_task_id_map }
      ∧ evs = statusWrites tid out := by
  unfold processing_finished at h
  split at h
  · cases h
  · next tid htid =>
    split at h
    · next hsome =>
      refine ⟨tid, htid, hsome, ?_, ?_⟩
      · exact (Prod.mk.injEq _ _ _ _ ▸ Option.some.injEq _ _ ▸ h).1.symm
      · exact (Prod.mk.injEq _ _ _ _ ▸ Option.some.injEq _ _ ▸ h).2.symm
    · cases h

theorem pf_pending_le (s : SchedState) (fut : Nat) (out : Outcome) (s2 : SchedState)
    (evs : List Event) (h : processing_finished s fut out = some (s2, evs)) :
    s2.pending_task_id_map.length ≤ s.pending_task_id_map.length := by
  obtain ⟨tid, _, _, hs2, _⟩ := pf_elim s fut out s2 evs h
  subst hs2
  simp only
  clear h
  induction s.pending_task_id_map with
  | nil => simp [eraseKey]
  | cons p rest ih =>
    obtain ⟨a, b⟩ := p
    by_cases hak : a = tid
    · simp only [eraseKey, if_pos hak, List.length_cons]
      omega
    · simp only [eraseKey, if_neg hak, List.length_cons]
      omega

theorem pf_count (s : SchedState) (fut : Nat) (out : Outcome) (s2 : SchedState)
    (evs : List Event) (h : processing_finished s fut out = some (s2, evs)) :
    s2.count = s.count ∧ List.countP isDispatch evs = 0 := by
  obtain ⟨tid, _, _, hs2, hevs⟩ := pf_elim s fut out s2 evs h
  subst hs2; subst hevs
  exact ⟨rfl, statusWrites_countP_isDispatch tid out⟩

/-! Reachability invariants of the scheduler. -/

theorem reach_pending_le (cfg : Config) (s : SchedState) (log : List Event)
    (h : Reach cfg s log) : s.pending_task_id_map.length ≤ cfg.parallel := by
  induction h with
  | init => exact Nat.zero_le _
  | step s log evs s2 h1 h2 ih =>
    cases h2 with
    | iter inp hc => exact autoIter_pending_le cfg inp s ih
    | callback s2 fut out evs hpf =>
      exact le_trans (pf_pending_le s fut out s2 evs hpf) ih

theorem reach_count_eq (cfg : Config) (s : SchedState) (log : List Event)
    (h : Reach cfg s log) : s.count = List.countP isDispatch log := by
  induction h with
  | init => rfl
  | step s log evs s2 h1 h2 ih =>
    rw [List.countP_append, ← ih]
    cases h2 with
    | iter inp hc => exact autoIter_count cfg inp s
    | callback s2 fut out evs hpf =>
      have := pf_count s fut out s2 evs hpf
      omega

theorem reach_count_le (cfg : Config) (s : SchedState) (log : List Event)
    (h : Reach cfg s log) (hm : 0 < cfg.maxcount) : s.count ≤ cfg.maxcount := by
  induction h with
  | init => exact Nat.zero_le _
  | step s log evs s2 h1 h2 ih =>
    cases h2 with
    | iter inp hc =>
      have h1 := autoIter_count cfg inp s
      have h2 := autoIter_dispatch_le_one cfg inp s
      have hcc : s.count < cfg.maxcount := by
        unfold loopContinues at hc
        simp only [Bool.or_eq_true, decide_eq_true_eq] at hc
        omega
      omega
    | callback s2 fut out evs hpf =>
      have := pf_count s fut out s2 evs hpf
      omega

/-! Claim theorems. -/

/-- Claim C1: a pass of the scheduling loop dispatches at most one job;
any identifier it dispatches had no unresolved in-flight entry when the
pass began, has one when the pass ends, and is exactly the first candidate
returned by the job store whose identifier is not already in the in-flight
table. -/
theorem at_most_one_inflight_dispatch (cfg : Config) (inp : IterInput)
    (s : SchedState) (tid : Nat)
    (hmem : Event.dispatch tid ∈ (autoIter cfg inp s).2) :
    List.countP isDispatch (autoIter cfg inp s).2 ≤ 1
    ∧ lookupKey tid s.pending_task_id_map = none
    ∧ (lookupKey tid (autoIter cfg inp s).1.pending_task_id_map).isSome = true
    ∧ (inp.tasks.find?
          (fun t => (lookupKey t.id s.pending_task_id_map).isNone)).map Task.id
        = some tid := by
  obtain ⟨t, hsel, hid, hlt, heq⟩ := autoIter_dispatch_mem cfg inp s tid hmem
  refine ⟨autoIter_dispatch_le_one cfg inp s, ?_, ?_, ?_⟩
  · exact hid ▸ selectCandidate_lookup _ _ _ hsel
  · rw [heq]
    simp [dispatchTask, dispatchState, lookupKey, hid]
  · rw [← selectCandidate_eq_find, hsel]
    simp [hid]

theorem at_most_one_inflight_dispatch_witness :
    List.countP isDispatch (autoIter cfgA inpA initState).2 ≤ 1
    ∧ lookupKey 1 initState.pending_task_id_map = none
    ∧ (lookupKey 1 (autoIter cfgA inpA initState).1.pending_task_id_map).isSome = true
    ∧ (inpA.tasks.find?
          (fun t => (lookupKey t.id initState.pending_task_id_map).isNone)).map Task.id
        = some 1 :=
  at_most_one_inflight_dispatch cfgA inpA initState 1 (by decide)

/-- Claim C2: when the completion callback fires for a dispatched job whose
two map entries are present and the map keys are duplicate-free (as
dispatch guarantees), the callback completes, removes exactly the two
entries for that job and no other entry, writes nothing on success and
writes exactly one failed-during-processing task state on each of the
three failure outcomes. -/
theorem completion_bookkeeping (s : SchedState) (fut tid f i : Nat)
    (out : Outcome) (s2 : SchedState) (evs : List Event)
    (hf : lookupKey fut s.pending_future_map = some tid)
    (hnf : (s.pending_future_map.map Prod.fst).Nodup)
    (hnt : (s.pending_task_id_map.map Prod.fst).Nodup)
    (hpf : processing_finished s fut out = some (s2, evs))
    (hfne : f ≠ fut) (hine : i ≠ tid) :
    lookupKey fut s2.pending_future_map = none
    ∧ lookupKey tid s2.pending_task_id_map = none
    ∧ s2.pending_future_map.length + 1 = s.pending_future_map.length
    ∧ s2.pending_task_id_map.length + 1 = s.pending_task_id_map.length
    ∧ lookupKey f s2.pending_future_map = lookupKey f s.pending_future_map
    ∧ lookupKey i s2.pending_task_id_map = lookupKey i s.pending_task_id_map
    ∧ evs = (if out = Outcome.success then []
             else [Event.setStatus tid TaskStatus.failed_processing]) := by
  obtain ⟨tid2, hf2, hsome, hs2, hevs⟩ := pf_elim s fut out s2 evs hpf
  have htid : tid2 = tid := by
    rw [hf] at hf2
    exact (Option.some.injEq _ _ ▸ hf2.symm)
  subst htid
  obtain ⟨v, hv⟩ := Option.isSome_iff_exists.mp hsome
  subst hs2
  refine ⟨lookupKey_eraseKey_self fut _, lookupKey_eraseKey_self tid2 _,
    length_eraseKey fut tid2 _ hnf hf,
    length_eraseKey tid2 v _ hnt hv,
    lookupKey_eraseKey_ne f fut _ hfne,
    lookupKey_eraseKey_ne i tid2 _ hine, ?_⟩
  subst hevs
  cases out <;> rfl

theorem completion_bookkeeping_witness :
    lookupKey 0 (SchedState.mk 1 [] [] 1).pending_future_map = none
    ∧ lookupKey 1 (SchedState.mk 1 [] [] 1).pending_task_id_map = none
    ∧ (SchedState.mk 1 [] [] 1).pending_future_map.length + 1
        = stC2.pending_future_map.length
    ∧ (SchedState.mk 1 [] [] 1).pending_task_id_map.length + 1
        = stC2.pending_task_id_map.length
    ∧ lookupKey 5 (SchedState.mk 1 [] [] 1).pending_future_map
        = lookupKey 5 stC2.pending_future_map
    ∧ lookupKey 7 (SchedState.mk 1 [] [] 1).pending_task_id_map
        = lookupKey 7 stC2.pending_task_id_map
    ∧ [Event.setStatus 1 TaskStatus.failed_processing]
        = (if Outcome.timeout = Outcome.success then []
           else [Event.setStatus 1 TaskStatus.failed_processing]) :=
  completion_bookkeeping stC2 0 1 5 7 Outcome.timeout
    (SchedState.mk 1 [] [] 1) [Event.setStatus 1 TaskStatus.failed_processing]
    (by decide) (by decide) (by decide) rfl (by decide) (by decide)

/-- Claim C3: in every reachable scheduler state the in-flight table holds
at most parallel entries, and whenever the table has reached the limit, a
loop pass that gets past the disk check (which runs first per the control
flow) leaves the state unchanged, performs no job store query and no
dispatch, and sleeps five seconds. -/
theorem concurrency_ceiling (cfg : Config) (s : SchedState) (log : List Event)
    (inp : IterInput) (h : Reach cfg s log) :
    s.pending_task_id_map.length ≤ cfg.parallel
    ∧ (((cfg.freespace != 0) && inp.need_space) = false →
        cfg.parallel ≤ s.pending_task_id_map.length →
          (autoIter cfg inp s).1 = s
          ∧ List.countP isQuery (autoIter cfg inp s).2 = 0
          ∧ List.countP isDispatch (autoIter cfg inp s).2 = 0
          ∧ Event.sleep 5 ∈ (autoIter cfg inp s).2) := by
  refine ⟨reach_pending_le cfg s log h, fun hd hfull => ?_⟩
  unfold autoIter
  rw [if_neg (by simp [hd]), if_pos hfull]
  refine ⟨rfl, ?_, ?_, ?_⟩
  · simp [List.countP_append, diskEvs_countP_isQuery, List.countP_cons, isQuery]
  · simp [List.countP_append, diskEvs_countP_isDispatch, List.countP_cons, isDispatch]
  · simp

theorem concurrency_ceiling_witness :
    initState.pending_task_id_map.length ≤ cfgB.parallel
    ∧ ((autoIter cfgB inpB initState).1 = initState
       ∧ List.countP isQuery (autoIter cfgB inpB initState).2 = 0
       ∧ List.countP isDispatch (autoIter cfgB inpB initState).2 = 0
       ∧ Event.sleep 5 ∈ (autoIter cfgB inpB initState).2) :=
  ⟨(concurrency_ceiling cfgB initState [] inpB Reach.init).1,
   (concurrency_ceiling cfgB initState [] inpB Reach.init).2 (by decide) (by decide)⟩

/-- Claim C4: when the freespace check is enabled and reports insufficient
space, the loop pass consists of the disk probe followed by a sixty second
sleep, changes no state and performs zero job store queries and zero
dispatches; when the configured minimum is zero the check is disabled:
the probe never runs and the sixty second backoff never occurs. -/
theorem disk_backpressure (cfg : Config) (inp : IterInput) (s : SchedState) :
    (cfg.freespace ≠ 0 → inp.need_space = true →
        autoIter cfg inp s = (s, [Event.checkDisk, Event.sleep 60])
        ∧ List.countP isQuery (autoIter cfg inp s).2 = 0
        ∧ List.countP isDispatch (autoIter cfg inp s).2 = 0)
    ∧ (cfg.freespace = 0 →
        Event.sleep 60 ∉ (autoIter cfg inp s).2
        ∧ Event.checkDisk ∉ (autoIter cfg inp s).2) := by
  constructor
  · intro hne hns
    have hcond : ((cfg.freespace != 0) && inp.need_space) = true := by
      simp [hns, hne]
    unfold autoIter
    rw [if_pos hcond]
    exact ⟨rfl, rfl, rfl⟩
  · intro hz
    have hcond : ((cfg.freespace != 0) && inp.need_space) = false := by simp [hz]
    have hde : diskEvs cfg = [] := by simp [diskEvs, hz]
    unfold autoIter
    rw [if_neg (by simp [hcond])]
    constructor
    · split
      · simp [hde]
      · split
        · simp [hde]
        · simp [dispatchTask, hde, List.mem_append, not_sleep_mem_delEvs]
    · split
      · simp [hde]
      · split
        · simp [hde]
        · simp [dispatchTask, hde, List.mem_append, not_checkDisk_mem_delEvs]

theorem disk_backpressure_witness :
    (autoIter cfgD inpD initState = (initState, [Event.checkDisk, Event.sleep 60])
     ∧ List.countP isQuery (autoIter cfgD inpD initState).2 = 0
     ∧ List.countP isDispatch (autoIter cfgD inpD initState).2 = 0)
    ∧ (Event.sleep 60 ∉ (autoIter cfgB inpB initState).2
       ∧ Event.checkDisk ∉ (autoIter cfgB inpB initState).2) :=
  ⟨(disk_backpressure cfgD inpD initState).1 (by decide) rfl,
   (disk_backpressure cfgB inpB initState).2 rfl⟩

/-- Claim C5: with max_analysis_count zero the while condition always
holds, so the loop never exits through the count check; with a positive
maximum every reachable log contains at most that many dispatches, the
counter equals the number of dispatches performed so far, and the while
condition fails as soon as the counter has reached the maximum, so no
further job is admitted. -/
theorem dispatch_count_limit (cfg : Config) (s : SchedState) (log : List Event)
    (c : Nat) (h : Reach cfg s log) :
    (cfg.maxcount = 0 → loopContinues cfg c = true)
    ∧ (0 < cfg.maxcount → List.countP isDispatch log ≤ cfg.maxcount)
    ∧ (0 < cfg.maxcount → cfg.maxcount ≤ c → loopContinues cfg c = false)
    ∧ s.count = List.countP isDispatch log := by
  refine ⟨?_, ?_, ?_, reach_count_eq cfg s log h⟩
  · intro hm
    simp [loopContinues, hm]
  · intro hm
    rw [← reach_count_eq cfg s log h]
    exact reach_count_le cfg s log h hm
  · intro hm hc
    simp only [loopContinues, Bool.or_eq_false_iff, decide_eq_false_iff_not]
    omega

theorem procDelEvs_no_status (cfg : Config) (pe : String → Bool) (target : String)
    (cp : Option String) (auto : Bool) :
    List.countP isProcSetStatus (procDelEvs cfg pe target cp auto) = 0 := by
  unfold procDelEvs
  split
  · rw [List.countP_append]
    have h1 : List.countP isProcSetStatus
        (if cfg.delete_original && pe target then [ProcEvent.unlink target] else []) = 0 := by
      split <;> rfl
    have h2 : List.countP isProcSetStatus
        (match cp with
         | some c => if cfg.delete_bin_copy && pe c then [ProcEvent.unlink c] else []
         | none => []) = 0 := by
      rcases cp with _ | c
      · rfl
      · simp only
        split <;> rfl
    omega
  · rfl

/-- Claim C6: process seeds the results container with empty statistics
buckets for processing, signatures and reporting, runs the processing
stage first and the signature stage second; when report is requested the
reporting stage runs third, followed by exactly one write marking the task
reported; when report is not requested the trace is the two analysis
stages alone, so no task state write happens in process. -/
theorem process_stage_order (cfg : Config) (pe : String → Bool) (target : String)
    (cp : Option String) (tid : Nat) (report auto capeproc : Bool) :
    (process cfg pe target cp tid report auto capeproc).1.statistics.processing = []
    ∧ (process cfg pe target cp tid report auto capeproc).1.statistics.signatures = []
    ∧ (process cfg pe target cp tid report auto capeproc).1.statistics.reporting = []
    ∧ (process cfg pe target cp tid report auto capeproc).2.get? 0
        = some ProcEvent.runProcessing
    ∧ (process cfg pe target cp tid report auto capeproc).2.get? 1
        = some ProcEvent.runSignatures
    ∧ (report = true →
        (process cfg pe target cp tid report auto capeproc).2.get? 2
            = some (ProcEvent.runReporting (if auto || capeproc then false else report))
        ∧ (process cfg pe target cp tid report auto capeproc).2.get? 3
            = some (ProcEvent.setStatus tid TaskStatus.reported)
        ∧ List.countP isProcSetStatus
            (process cfg pe target cp tid report auto capeproc).2 = 1)
    ∧ (report = false →
        (process cfg pe target cp tid report auto capeproc).2
            = [ProcEvent.runProcessing, ProcEvent.runSignatures]) := by
  refine ⟨rfl, rfl, rfl, ?_, ?_, ?_, ?_⟩
  · cases report <;> rfl
  · cases report <;> rfl
  · intro hr
    subst hr
    refine ⟨rfl, rfl, ?_⟩
    simp [process, List.countP_cons, List.countP_append, isProcSetStatus,
      procDelEvs_no_status]
  · intro hr
    subst hr
    rfl

theorem process_stage_order_witness :
    (process cfgA (fun _ => true) "/tmp/a" (some "/tmp/c") 1 true true false).1.statistics.processing = []
    ∧ (process cfgA (fun _ => true) "/tmp/a" (some "/tmp/c") 1 true true false).1.statistics.signatures = []
    ∧ (process cfgA (fun _ => true) "/tmp/a" (some "/tmp/c") 1 true true false).1.statistics.reporting = []
    ∧ (process cfgA (fun _ => true) "/tmp/a" (some "/tmp/c") 1 true true false).2.get? 0
        = some ProcEvent.runProcessing
    ∧ (process cfgA (fun _ => true) "/tmp/a" (some "/tmp/c") 1 true true false).2.get? 1
        = some ProcEvent.runSignatures
    ∧ ((process cfgA (fun _ => true) "/tmp/a" (some "/tmp/c") 1 true true false).2.get? 2
          = some (ProcEvent.runReporting false)
       ∧ (process cfgA (fun _ => true) "/tmp/a" (some "/tmp/c") 1 true true false).2.get? 3
          = some (ProcEvent.setStatus 1 TaskStatus.reported)
       ∧ List.countP isProcSetStatus
          (process cfgA (fun _ => true) "/tmp/a" (some "/tmp/c") 1 true true false).2 = 1)
    ∧ (process cfgA (fun _ => true) "/tmp/b" none 2 false false false).2
        = [ProcEvent.runProcessing, ProcEvent.runSignatures] :=
  ⟨(process_stage_order cfgA (fun _ => true) "/tmp/a" (some "/tmp/c") 1 true true false).1,
   (process_stage_order cfgA (fun _ => true) "/tmp/a" (some "/tmp/c") 1 true true false).2.1,
   (process_stage_order cfgA (fun _ => true) "/tmp/a" (some "/tmp/c") 1 true true false).2.2.1,
   (process_stage_order cfgA (fun _ => true) "/tmp/a" (some "/tmp/c") 1 true true false).2.2.2.1,
   (process_stage_order cfgA (fun _ => true) "/tmp/a" (some "/tmp/c") 1 true true false).2.2.2.2.1,
   (process_stage_order cfgA (fun _ => true) "/tmp/a" (some "/tmp/c") 1 true true false).2.2.2.2.2.1 rfl,
   (process_stage_order cfgA (fun _ => true) "/tmp/b" none 2 false false false).2.2.2.2.2.2 rfl⟩

/-- Claim C7 evaluation: an error raised by a resource query inside
memory_limit during loop setup (for instance an unreadable /proc/meminfo)
escapes autoprocess as UnboundLocalError, because the finally clause
evaluates pool.close although the pool variable was never bound; the same
error raised inside the loop body after the pool is bound is swallowed and
autoprocess returns through its shutdown path. -/
theorem resource_failure_crashes_setup :
    autoprocess_outcome (some Exn.osError) none = RunResult.raises Exn.unboundLocal
    ∧ autoprocess_outcome none (some Exn.osError) = RunResult.returns :=
  ⟨rfl, rfl⟩

theorem dispatch_count_limit_witness :
    loopContinues cfgB 99 = true
    ∧ List.countP isDispatch [] ≤ cfgC.maxcount
    ∧ loopContinues cfgC 3 = false
    ∧ initState.count = List.countP isDispatch [] :=
  ⟨(dispatch_count_limit cfgB initState [] 99 Reach.init).1 rfl,
   (dispatch_count_limit cfgC initState [] 3 Reach.init).2.1 (by decide),
   (dispatch_count_limit cfgC initState [] 3 Reach.init).2.2.1 (by decide) (by decide),
   (dispatch_count_limit cfgC initState [] 3 Reach.init).2.2.2⟩

theorem get_memory_eq_lookup (meminfo : List (String × Nat)) :
    get_memory meminfo = (List.lookup "MemAvailable:" meminfo).getD 0 := by
  induction meminfo with
  | nil => rfl
  | cons p rest ih =>
    obtain ⟨k, v⟩ := p
    by_cases hk : k = "MemAvailable:"
    · subst hk
      simp [get_memory, List.lookup]
    · rw [get_memory, if_neg hk, ih]
      have hbeq : ("MemAvailable:" == k) = false := by simp [Ne.symm hk]
      simp [List.lookup, hbeq]

/-- Claim C8 counterexample: on Linux, a meminfo without a MemAvailable
line does not leave the limit unset — memory_limit installs a soft
address-space limit of zero bytes. -/
theorem memory_limit_zero_counterexample :
    memory_limit "Linux" meminfoNoAvailable = MemAction.setSoftLimit 0
    ∧ memory_limit "Linux" meminfoNoAvailable ≠ MemAction.noop := by
  constructor <;> decide

/-- Claim C8 amended: off Linux, memory_limit is a no-op that returns
without failing; on Linux it sets the soft address-space ceiling to the
configured fraction of the MemAvailable figure read from the memory
accounting interface; when the MemAvailable figure is absent the figure
defaults to zero, so a zero-byte soft limit is installed rather than no
limit. -/
theorem memory_limit_semantics (sys : String) (meminfo : List (String × Nat))
    (v : Nat) :
    (sys ≠ "Linux" → memory_limit sys meminfo = MemAction.noop)
    ∧ (List.lookup "MemAvailable:" meminfo = some v →
        memory_limit "Linux" meminfo = MemAction.setSoftLimit (v * 1024 * 8 / 10))
    ∧ (List.lookup "MemAvailable:" meminfo = none →
        memory_limit "Linux" meminfo = MemAction.setSoftLimit 0) := by
  refine ⟨?_, ?_, ?_⟩
  · intro hs
    simp [memory_limit, hs]
  · intro hl
    simp [memory_limit, get_memory_eq_lookup, hl]
  · intro hl
    simp [memory_limit, get_memory_eq_lookup, hl]

theorem memory_limit_semantics_witness :
    memory_limit "Windows" meminfoAvailable = MemAction.noop
    ∧ memory_limit "Linux" meminfoAvailable = MemAction.setSoftLimit (50 * 1024 * 8 / 10)
    ∧ memory_limit "Linux" meminfoNoAvailable = MemAction.setSoftLimit 0 :=
  ⟨(memory_limit_semantics "Windows" meminfoAvailable 0).1 (by decide),
   (memory_limit_semantics "Linux" meminfoAvailable 50).2.1 (by decide),
   (memory_limit_semantics "Linux" meminfoNoAvailable 0).2.2 (by decide)⟩

/-- Claim C9 counterexample: signature-replay mode with no stored report
and no default report.json exits with a non-zero status although the
analyses directory exists, logging initialised fine and no memory
exhaustion occurred — a non-zero exit situation beyond the three the claim
lists. -/
theorem exit_code_counterexample :
    exitCode (main_run sigReplayNoReport) ≠ 0
    ∧ sigReplayNoReport.analysis_dir_exists = true
    ∧ sigReplayNoReport.log_permission_error = false
    ∧ sigReplayNoReport.memory_exhausted = false := by
  decide

/-- Claim C9 amended: main exits with a non-zero status in exactly five
situations — the analyses directory for a requested task id is missing, a
permission failure occurs while initialising logging, a resource query
fails during scheduler setup (crashing autoprocess through the unbound
pool variable in its finally clause), the scheduling loop exhausts
memory, or signature-replay mode finds no stored report and the default
report.json file is missing; in every other situation it exits with
status zero. -/
theorem exit_code_contract (inp : MainInput) :
    exitCode (main_run inp) ≠ 0 ↔
      ((inp.id_is_auto = false ∧ inp.analysis_dir_exists = false)
       ∨ ((inp.id_is_auto = true ∨ inp.analysis_dir_exists = true)
          ∧ inp.log_permission_error = true)
       ∨ (inp.id_is_auto = true ∧ inp.log_permission_error = false
          ∧ inp.setup_resource_failure = true)
       ∨ (inp.id_is_auto = true ∧ inp.log_permission_error = false
          ∧ inp.setup_resource_failure = false ∧ inp.memory_exhausted = true)
       ∨ (inp.id_is_auto = false ∧ inp.analysis_dir_exists = true
          ∧ inp.log_permission_error = false ∧ inp.signatures = true
          ∧ inp.report_found = false ∧ inp.default_report_exists = false)) := by
  obtain ⟨a, b, c, d, e, f, g, h, i, j⟩ := inp
  cases a <;> cases b <;> cases c <;> cases d <;> cases e <;> cases f <;>
    cases g <;> cases h <;> cases i <;> cases j <;> decide

/-- Claim C10: in auto mode, when the selected candidate is not of the url
category, delete_bin_copy is enabled and the shared origin copy — a path
derived from the sample hash alone, not from the task id — exists, then the
loop pass that dispatches the task unlinks that origin copy immediately
after the pool.schedule call, within the same pass; completion callbacks
never unlink anything, so the deletion stands even if the job later fails
or times out. -/
theorem delete_origin_at_dispatch (cfg : Config) (inp : IterInput) (s : SchedState)
    (t : Task) (st : SchedState) (fut : Nat) (out : Outcome) (s2 : SchedState)
    (evs2 : List Event)
    (hdisk : ((cfg.freespace != 0) && inp.need_space) = false)
    (hroom : s.pending_task_id_map.length < cfg.parallel)
    (hsel : selectCandidate s.pending_task_id_map inp.tasks = some t)
    (hurl : t.category ≠ "url")
    (hdel : cfg.delete_bin_copy = true)
    (hex : inp.origin_exists (originPath (inp.view_sample t.sample_id)) = true)
    (hpf : processing_finished st fut out = some (s2, evs2)) :
    (autoIter cfg inp s).2
      = diskEvs cfg
        ++ [Event.queryJobStore (sourceStatus cfg), Event.dispatch t.id,
            Event.unlink (originPath (inp.view_sample t.sample_id))]
    ∧ List.countP isUnlink evs2 = 0 := by
  constructor
  · unfold autoIter
    rw [if_neg (by simp [hdisk]), if_neg (by omega)]
    rw [hsel]
    have hdeleq : delEvs cfg inp t
        = [Event.unlink (originPath (inp.view_sample t.sample_id))] := by
      unfold delEvs
      rw [if_pos (by simp [hurl, hdel, hex])]
    simp [dispatchTask, hdeleq]
  · obtain ⟨tid, _, _, _, hevs⟩ := pf_elim st fut out s2 evs2 hpf
    subst hevs
    exact statusWrites_countP_isUnlink tid out

theorem delete_origin_at_dispatch_witness :
    (autoIter cfgA inpA initState).2
      = diskEvs cfgA
        ++ [Event.queryJobStore (sourceStatus cfgA), Event.dispatch taskA.id,
            Event.unlink (originPath (inpA.view_sample taskA.sample_id))]
    ∧ List.countP isUnlink [Event.setStatus 1 TaskStatus.failed_processing] = 0 :=
  delete_origin_at_dispatch cfgA inpA initState taskA stC2 0 Outcome.timeout
    (SchedState.mk 1 [] [] 1) [Event.setStatus 1 TaskStatus.failed_processing]
    (by decide) (by decide) (by decide) (by decide) rfl (by decide) rfl

end Cape
